import Mathlib

/-!
Verification development for the certificate/ID-card registry application
(Express backend `src/backend/server.js`, React frontend pages).

The relevant JavaScript functions are shallowly embedded as executable Lean
definitions.  JavaScript field values arriving in a JSON request body are
modelled by `JsValue`; records are association lists of field name to value,
mirroring a parsed JSON object.  Fallible JavaScript code (a thrown
`TypeError`, e.g. calling `.trim()` on a number) is modelled with `Option`:
`none` means the JavaScript evaluation throws.
-/

/-- A JavaScript value as it can appear in a parsed JSON request body field
(plus `undef` for an absent property and `nan` for the number NaN, which can
arise from `parseInt`). -/
inductive JsValue where
  | undef : JsValue
  | null : JsValue
  | str : String → JsValue
  | num : Int → JsValue
  | nan : JsValue
  | bool : Bool → JsValue
deriving DecidableEq, Repr

namespace JsValue

/-- JavaScript truthiness: `undefined`, `null`, `""`, `0`, `NaN` and `false`
are falsy, everything else is truthy. -/
def truthy : JsValue → Bool
  | undef => false
  | null => false
  | str s => s ≠ ""
  | num n => n ≠ 0
  | nan => false
  | bool b => b

end JsValue

/-- One character of a decimal digit, as JavaScript character classes see it. -/
def isDigitChar (c : Char) : Bool := '0' ≤ c ∧ c ≤ '9'

/-- Strip leading and trailing whitespace from a character list. -/
def trimCharList (l : List Char) : List Char :=
  List.rdropWhile Char.isWhitespace (l.dropWhile Char.isWhitespace)

/-- JavaScript `String.prototype.trim()` (kernel-computable embedding; the
whitespace class is the ASCII one, which covers every value this
application handles). -/
def jsTrim (s : String) : String := String.mk (trimCharList s.toList)

/-- JavaScript `String.prototype.toUpperCase()` restricted to ASCII letters,
which covers the record contents of this application. -/
def jsToUpper (s : String) : String := String.mk (s.toList.map Char.toUpper)

/-- JavaScript `.replace(/\s+/g, "")`: remove every whitespace character. -/
def stripWs (s : String) : String :=
  String.mk (s.toList.filter (fun c => !c.isWhitespace))

/-- One step of `.replace(/\s+/g, " ")` over a character list: every maximal
run of whitespace becomes a single space. -/
def squeezeWsList : List Char → List Char
  | [] => []
  | c :: rest =>
    if c.isWhitespace then
      match rest with
      | r :: _ => if r.isWhitespace then squeezeWsList rest else ' ' :: squeezeWsList rest
      | [] => [' ']
    else c :: squeezeWsList rest

/-- JavaScript `.replace(/\s+/g, " ")`. -/
def squeezeWs (s : String) : String := String.mk (squeezeWsList s.toList)

/-- Value of a nonempty list of decimal digit characters. -/
def digitsToNat : List Char → Nat
  | [] => 0
  | c :: cs => (c.toNat - '0'.toNat) * 10 ^ cs.length + digitsToNat cs

/-- JavaScript `parseInt(s)` (radix 10, no `0x` prefix in any input this
application feeds it): skip leading whitespace, read an optional sign and a
maximal prefix of decimal digits; `none` models the NaN result when no digit
is read. -/
def jsParseInt (s : String) : Option Int :=
  let t := s.toList.dropWhile Char.isWhitespace
  let (sign, rest) :=
    match t with
    | '-' :: r => ((-1 : Int), r)
    | '+' :: r => ((1 : Int), r)
    | r => ((1 : Int), r)
  let ds := rest.takeWhile isDigitChar
  if ds.isEmpty then none else some (sign * (digitsToNat ds : Int))

/-- JavaScript `parseInt(v)` on an arbitrary value: the value is first
converted to a string.  An integer number round-trips to itself (inputs here
are small, so no exponential notation arises); `null`, `undefined`, booleans
and NaN stringify to words with no digit prefix and parse to NaN. -/
def jsParseIntVal : JsValue → Option Int
  | JsValue.str s => jsParseInt s
  | JsValue.num n => some n
  | _ => none

/-- A parsed JSON request body: field name to value.  Duplicate keys in the
raw JSON collapse to the last occurrence, which `jsGet` honours. -/
def Body := List (String × JsValue)

/-- Property access `body.field`: the last binding of the name wins (as in a
parsed JSON object), an absent name reads as `undefined`. -/
def jsGet (b : Body) (k : String) : JsValue :=
  match (List.reverse b).find? (fun p => p.1 = k) with
  | some p => p.2
  | none => JsValue.undef

/-- `VALID_TRAINING_TYPES` from `server.js`. -/
def VALID_TRAINING_TYPES : List String :=
  ["Basic Life Support Training",
   "Basic Life Support and Standard First Aid Training",
   "Basic Life Support Training of trainers",
   "Standard First Aid Training of trainers"]

/-- `VALID_PARTICIPANT_TYPES` from `server.js`. -/
def VALID_PARTICIPANT_TYPES : List String := ["Lay Rescuer", "Healthcare Provider"]

/-- The check `!data.participant_name || !data.participant_name.trim()` from
`validateCertificateData`.  Returns `none` when the JavaScript throws (a
truthy non-string has no `.trim` method); otherwise `some true` when the
"participant_name is required" error is pushed. -/
def nameMissingCheck (v : JsValue) : Option Bool :=
  if v.truthy then
    match v with
    | JsValue.str s => some (jsTrim s = "")
    | _ => none
  else
    some true

/-- The check `data.X && !VALID.includes(data.X)` used for both enumerated
fields: a truthy value not in the allowed list (string comparison, so any
truthy non-string fails `includes`) pushes an error. -/
def enumCheck (valid : List String) (v : JsValue) : Bool :=
  v.truthy &&
    match v with
    | JsValue.str s => !(valid.contains s)
    | _ => true

/-- The presence test of the age check:
`data.age !== undefined && data.age !== null && data.age !== ""`. -/
def agePresent (v : JsValue) : Bool :=
  v ≠ JsValue.undef ∧ v ≠ JsValue.null ∧ v ≠ JsValue.str ""

/-- The age check body: `isNaN(ageNum) || ageNum < 0 || ageNum > 120` after
`ageNum = parseInt(data.age)`. -/
def ageBad (v : JsValue) : Bool :=
  match jsParseIntVal v with
  | none => true
  | some n => n < 0 || n > 120

/-- The "participant_name is required" error message. -/
def nameReqMsg : String := "participant_name is required"

/-- The training_type error message template from `validateCertificateData`. -/
def trainingTypeMsg : String :=
  "training_type must be one of: " ++ String.intercalate ", " VALID_TRAINING_TYPES

/-- The participant_type error message template from `validateCertificateData`. -/
def participantTypeMsg : String :=
  "participant_type must be one of: " ++ String.intercalate ", " VALID_PARTICIPANT_TYPES

/-- The age error message from `validateCertificateData`. -/
def ageMsg : String := "age must be a valid number between 0 and 120"

/-- `validateCertificateData` from `server.js`: accumulates error messages;
`none` models a thrown `TypeError` (only possible from the
`participant_name.trim()` call).  The result mirrors
`{ valid: errors.length === 0, errors }` as the list of errors. -/
def validateCertificateData (data : Body) : Option (List String) := do
  let nameMissing ← nameMissingCheck (jsGet data "participant_name")
  let e1 : List String := if nameMissing then [nameReqMsg] else []
  let e2 : List String :=
    if enumCheck VALID_TRAINING_TYPES (jsGet data "training_type") then [trainingTypeMsg] else []
  let e3 : List String :=
    if enumCheck VALID_PARTICIPANT_TYPES (jsGet data "participant_type") then
      [participantTypeMsg]
    else []
  let e4 : List String :=
    if agePresent (jsGet data "age") && ageBad (jsGet data "age") then [ageMsg] else []
  pure (e1 ++ e2 ++ e3 ++ e4)

/-- `valid` flag of `validateCertificateData`: `errors.length === 0`. -/
def certDataValid (data : Body) : Bool :=
  match validateCertificateData data with
  | some [] => true
  | _ => false

/-- `data.X?.trim() || null` from `sanitizeCertificateData`: optional chaining
gives `undefined` (hence `null` after `||`) for `null`/`undefined`, trims a
string (an all-whitespace string trims to `""`, falsy, hence `null`), and
throws on any other truthy value. -/
def trimField (v : JsValue) : Option JsValue :=
  match v with
  | JsValue.undef => some JsValue.null
  | JsValue.null => some JsValue.null
  | JsValue.str s => some (if jsTrim s = "" then JsValue.null else JsValue.str (jsTrim s))
  | _ => none

/-- `data.age ? parseInt(data.age) : null` from `sanitizeCertificateData`:
a falsy age (absent, `null`, `""`, the number 0, NaN, `false`) becomes
`null`; a truthy age is fed to `parseInt`, possibly producing NaN. -/
def sanitizeAge (v : JsValue) : JsValue :=
  if v.truthy then
    match jsParseIntVal v with
    | some n => JsValue.num n
    | none => JsValue.nan
  else JsValue.null

/-- The sanitized record: the explicit 8-field allow-list that
`sanitizeCertificateData` returns. -/
structure SanitizedData where
  participant_name : JsValue
  training_type : JsValue
  training_date : JsValue
  venue : JsValue
  facility : JsValue
  participant_type : JsValue
  age : JsValue
  position : JsValue
deriving DecidableEq, Repr

/-- `sanitizeCertificateData` from `server.js`; `none` models a thrown
`TypeError` from `.trim()` on a truthy non-string field. -/
def sanitizeCertificateData (data : Body) : Option SanitizedData := do
  let pn ← trimField (jsGet data "participant_name")
  let tt ← trimField (jsGet data "training_type")
  let td ← trimField (jsGet data "training_date")
  let ve ← trimField (jsGet data "venue")
  let fa ← trimField (jsGet data "facility")
  let pt ← trimField (jsGet data "participant_type")
  let ag := sanitizeAge (jsGet data "age")
  let po ← trimField (jsGet data "position")
  pure { participant_name := pn, training_type := tt, training_date := td,
         venue := ve, facility := fa, participant_type := pt,
         age := ag, position := po }

/-- The 8-field allow-list of `sanitizeCertificateData`. -/
def allowedFields : List String :=
  ["participant_name", "training_type", "training_date", "venue",
   "facility", "participant_type", "age", "position"]

/-- A sanitized string-field value shape: `null`, or a nonempty string that
trimming leaves unchanged (no leading or trailing whitespace). -/
def nullOrTrimmedNonempty (w : JsValue) : Prop :=
  w = JsValue.null ∨ ∃ s, w = JsValue.str s ∧ s ≠ "" ∧ jsTrim s = s

/-- An absent, `null`, empty or whitespace-only input value. -/
def blankish (v : JsValue) : Prop :=
  v = JsValue.undef ∨ v = JsValue.null ∨ ∃ w, v = JsValue.str w ∧ jsTrim w = ""

/-- The seven free-text fields of the sanitizer, paired as
(raw input value, sanitized output value). -/
def stringFieldPairs (body : Body) (out : SanitizedData) : List (JsValue × JsValue) :=
  [(jsGet body "participant_name", out.participant_name),
   (jsGet body "training_type", out.training_type),
   (jsGet body "training_date", out.training_date),
   (jsGet body "venue", out.venue),
   (jsGet body "facility", out.facility),
   (jsGet body "participant_type", out.participant_type),
   (jsGet body "position", out.position)]

/-!
Batch grouping (`filteredAndGroupedCerts` in the registry page component).
A fetched certificate record's text fields are strings or `null`
(modelled as `Option String`; `some ""` is possible in principle and is
handled by the JavaScript `||` fallbacks like any other falsy value).
-/

/-- A certificate record as the frontend sees it. -/
structure Cert where
  id : Int
  participant_name : Option String
  training_date : Option String
  training_type : Option String
  venue : Option String
  facility : Option String
deriving DecidableEq, Repr

/-- JavaScript `x || dflt` for a string-or-null field: `null`, `undefined`
and `""` all fall back. -/
def jsOrStr (v : Option String) (dflt : String) : String :=
  match v with
  | some s => if s = "" then dflt else s
  | none => dflt

/-- `(cert.training_date || "NODATE").toUpperCase().replace(/\s+/g, "")`. -/
def certDateKey (c : Cert) : String := stripWs (jsToUpper (jsOrStr c.training_date "NODATE"))

/-- `(cert.training_type || "UNSPECIFIED").toUpperCase().replace(/\s+/g, "")`. -/
def certTypeKey (c : Cert) : String :=
  stripWs (jsToUpper (jsOrStr c.training_type "UNSPECIFIED"))

/-- The composite batch key: `` `${dateKey}_${typeKey}` ``. -/
def certBatchId (c : Cert) : String := certDateKey c ++ "_" ++ certTypeKey c

/-- The per-batch value built by the grouping loop. -/
structure BatchGroup where
  displayDate : String
  trainingType : String
  certs : List Cert
deriving DecidableEq, Repr

/-- `(cert.training_date || "NO DATE").trim().replace(/\s+/g, " ").toUpperCase()`. -/
def certDisplayDate (c : Cert) : String :=
  jsToUpper (squeezeWs (jsTrim (jsOrStr c.training_date "NO DATE")))

/-- `(cert.training_type || "UNSPECIFIED").trim().replace(/\s+/g, " ").toUpperCase()`. -/
def certDisplayType (c : Cert) : String :=
  jsToUpper (squeezeWs (jsTrim (jsOrStr c.training_type "UNSPECIFIED")))

/-- One iteration of the grouping `forEach`: push the record onto its
batch's list, creating the batch (at the end, preserving key insertion
order as a JavaScript object does for string keys) if absent. -/
def insertCert (groups : List (String × BatchGroup)) (c : Cert) : List (String × BatchGroup) :=
  if groups.any (fun p => p.1 = certBatchId c) then
    groups.map (fun p =>
      if p.1 = certBatchId c then (p.1, { p.2 with certs := p.2.certs ++ [c] }) else p)
  else
    groups ++ [(certBatchId c,
      { displayDate := certDisplayDate c, trainingType := certDisplayType c, certs := [c] })]

/-- The grouping loop over the (already filtered) record list followed by
`Object.entries`. -/
def groupCerts (l : List Cert) : List (String × BatchGroup) := l.foldl insertCert []

/-- JavaScript `String.prototype.toLowerCase()` restricted to ASCII. -/
def jsToLower (s : String) : String := String.mk (s.toList.map Char.toLower)

/-- JavaScript `a.includes(b)`: `b` occurs as a contiguous substring of `a`. -/
def jsIncludes (a b : String) : Bool :=
  (a.toList.tails).any (fun t => b.toList.isPrefixOf t)

/-- `cert.field?.toLowerCase().includes(search)` with `undefined` falsy. -/
def fieldMatches (v : Option String) (search : String) : Bool :=
  match v with
  | some s => jsIncludes (jsToLower s) search
  | none => false

/-- The search predicate of `filteredAndGroupedCerts`. -/
def matchesSearch (search : String) (c : Cert) : Bool :=
  fieldMatches c.participant_name search || fieldMatches c.training_date search ||
    fieldMatches c.venue search || fieldMatches c.facility search

/-- `filteredAndGroupedCerts`: filter by the lowercased search term, then
group. -/
def filteredAndGroupedCerts (searchTerm : String) (list : List Cert) :
    List (String × BatchGroup) :=
  groupCerts (list.filter (matchesSearch (jsToLower searchTerm)))

/-- Counterexample record with an empty training_date string. -/
def cexEmptyDate : Cert :=
  { id := 1, participant_name := some "A", training_date := some "",
    training_type := some "BLS", venue := none, facility := none }

/-- Counterexample record with a whitespace-only training_date string. -/
def cexSpaceDate : Cert :=
  { id := 2, participant_name := some "B", training_date := some " ",
    training_type := some "BLS", venue := none, facility := none }

/-- Witness record: date in mixed case and single spacing. -/
def wCertA : Cert :=
  { id := 3, participant_name := some "A", training_date := some "January 21-23, 2026",
    training_type := some "BLS", venue := none, facility := none }

/-- Witness record: same date in upper case with extra whitespace. -/
def wCertB : Cert :=
  { id := 4, participant_name := some "B", training_date := some "JANUARY  21-23,2026",
    training_type := some "bls", venue := none, facility := none }

/-!
Batch listing order (`getSortableDate` and the `paginatedBatches` sort in
the registry page component).  The JavaScript engine's `new Date(string)`
parser is an external collaborator; it is modelled as a parameter
`parse : String → Option Int` giving the millisecond timestamp, with `none`
for an Invalid Date (whose comparisons are NaN; ECMAScript SortCompare
turns a NaN comparator result into 0).
-/

/-- JavaScript `s.split(sep)` for a one-character separator, over character
lists (`"".split(sep)` is `[""]`, a trailing separator yields a final
`""`). -/
def splitOnChar (sep : Char) : List Char → List (List Char)
  | [] => [[]]
  | c :: rest =>
    let r := splitOnChar sep rest
    if c = sep then [] :: r
    else
      match r with
      | h :: t => (c :: h) :: t
      | [] => [[c]]

/-- `getSortableDate` from the dashboard sorting step.  An empty display
string is falsy and returns epoch zero (`new Date(0)`); a string containing
`-` is split, its first fragment trimmed and recombined with the part after
the first comma (falling back to `" 2026"` when that part is missing or
empty); otherwise the whole string is handed to the engine.  The source's
`try/catch` is dead code: `new Date` never throws. -/
def getSortableDate (parse : String → Option Int) (dateStr : String) : Option Int :=
  if dateStr = "" then some 0
  else
    let parts := splitOnChar '-' dateStr.toList
    if parts.length > 1 then
      let monthDay := jsTrim (String.mk (parts.headD []))
      let yearPart :=
        match (splitOnChar ',' dateStr.toList).drop 1 with
        | [] => " 2026"
        | y :: _ => if y = [] then " 2026" else String.mk y
      parse (monthDay ++ "," ++ yearPart)
    else parse dateStr

/-- The comparator passed to `.sort` in the source, whose parameters are
declared `(b, a)` so it returns `date(second) - date(first)`; a comparison
involving an invalid date is NaN, which SortCompare treats as 0. -/
def sortableCompare (parse : String → Option Int) (u v : String × BatchGroup) : Int :=
  match getSortableDate parse v.2.displayDate, getSortableDate parse u.2.displayDate with
  | some dv, some du => dv - du
  | _, _ => 0

/-- Stable insertion of one element under a JavaScript comparator: the
element goes before the first earlier element it need not follow
(comparator ≤ 0). -/
def jsOrderedInsert (comp : α → α → Int) (x : α) : List α → List α
  | [] => [x]
  | y :: ys => if comp x y ≤ 0 then x :: y :: ys else y :: jsOrderedInsert comp x ys

/-- JavaScript `Array.prototype.sort` modelled as a stable insertion sort;
for a consistent comparator ECMAScript prescribes exactly the stable order
this produces. -/
def jsSortBy (comp : α → α → Int) : List α → List α
  | [] => []
  | x :: xs => jsOrderedInsert comp x (jsSortBy comp xs)

/-- `[...filteredAndGroupedCerts].sort((b, a) => ...)` from the source. -/
def sortedBatches (parse : String → Option Int) (l : List (String × BatchGroup)) :
    List (String × BatchGroup) :=
  jsSortBy (sortableCompare parse) l

/-- The pagination slice `sorted.slice(start, start + itemsPerPage)` with
`start = (currentPage - 1) * itemsPerPage`. -/
def paginatedBatches (parse : String → Option Int) (page per : Nat)
    (l : List (String × BatchGroup)) : List (String × BatchGroup) :=
  ((sortedBatches parse l).drop ((page - 1) * per)).take per

/-- The sort key a listing entry is ordered by (0 for the impossible
`none`, which the sortedness theorem excludes by hypothesis). -/
def batchKeyD (parse : String → Option Int) (e : String × BatchGroup) : Int :=
  (getSortableDate parse e.2.displayDate).getD 0

/-- Descending order of listing entries by sortable date. -/
def descBySortableDate (parse : String → Option Int) (u v : String × BatchGroup) : Prop :=
  batchKeyD parse v ≤ batchKeyD parse u

/-- The uppercase English month names, for the reference date engine. -/
def monthNamesUpper : List String :=
  ["JANUARY", "FEBRUARY", "MARCH", "APRIL", "MAY", "JUNE", "JULY",
   "AUGUST", "SEPTEMBER", "OCTOBER", "NOVEMBER", "DECEMBER"]

/-- A reference model of the external JavaScript Date engine on the
`"MONTH D, YYYY"` strings this page feeds it: any engine agreeing with the
calendar on such strings is strictly monotone in (year, month, day), which
is all the concrete evaluations below use.  Output is an order-preserving
encoding of the date, `none` when the string is not of that shape. -/
def refDateParse (s : String) : Option Int := do
  let toks := (splitOnChar ' ' (s.toList.map (fun c => if c = ',' then ' ' else c))).filter
    (fun t => t ≠ [])
  match toks with
  | [m, d, y] => do
    let mi ← (monthNamesUpper.map String.toList).indexOf? m
    let dn ← jsParseInt (String.mk d)
    let yn ← jsParseInt (String.mk y)
    pure (yn * 416 + ((mi : Int) + 1) * 32 + dn)
  | _ => none

/-- Record with a January 2026 training date, for the C1 evaluation. -/
def rJan : Cert :=
  { id := 10, participant_name := some "P1", training_date := some "January 23-27, 2026",
    training_type := some "BLS", venue := none, facility := none }

/-- Record with a February 2026 training date, for the C1 evaluation. -/
def rFeb : Cert :=
  { id := 11, participant_name := some "P2", training_date := some "February 2-6, 2026",
    training_type := some "BLS", venue := none, facility := none }

/-!
Certificate page derived fields (`CertPDF`: `getTrainingAcronym`,
`getParticipantAcronym`, `parseFinalDateComponents`, and the
`certificateCode` template in `CertificatePage`).
-/

/-- A record as the certificate page receives it (`mongoId` embeds the
source's `_id` field). -/
structure PageCert where
  mongoId : Option String
  id : Option Int
  participant_name : Option String
  training_type : Option String
  training_date : Option String
  training_date_range : Option String
  venue : Option String
  facility : Option String
  participant_type : Option String
deriving DecidableEq, Repr

/-- The training-acronym lookup table of `getTrainingAcronym` (modelled as
an own-property lookup; prototype-chain keys are outside the model). -/
def trainingAcronymMap : List (String × String) :=
  [("Basic Life Support Training", "BLS"),
   ("Basic Life Support and Standard First Aid Training", "BLS-SFA"),
   ("Basic Life Support Training of trainers", "BLS-TOT"),
   ("Standard First Aid Training of trainers", "SFA-TOT")]

/-- `getTrainingAcronym`: `mapping[text] || "TRNG"`. -/
def getTrainingAcronym (text : String) : String :=
  ((trainingAcronymMap.find? (fun p => p.1 = text)).map Prod.snd).getD "TRNG"

/-- The participant-acronym lookup table of `getParticipantAcronym`. -/
def participantAcronymMap : List (String × String) :=
  [("Lay Rescuer", "LR"), ("Healthcare Provider", "HCP")]

/-- `getParticipantAcronym`: `mapping[text] || "PART"`. -/
def getParticipantAcronym (text : String) : String :=
  ((participantAcronymMap.find? (fun p => p.1 = text)).map Prod.snd).getD "PART"

/-- First window of 4 consecutive decimal digits (the first match of the
pattern `\d{4}`). -/
def firstFourDigits : List Char → Option (List Char)
  | [] => none
  | c :: rest =>
    if ((c :: rest).take 4).length = 4 && ((c :: rest).take 4).all isDigitChar then
      some ((c :: rest).take 4)
    else firstFourDigits rest

/-- The English month names in the alternation order of the source regex. -/
def monthNames : List String :=
  ["January", "February", "March", "April", "May", "June", "July",
   "August", "September", "October", "November", "December"]

/-- Length of the month name matching case-insensitively at the head of the
list, if any (the alternation is unambiguous: no two month names share a
position). -/
def monthMatchLen (l : List Char) : Option Nat :=
  monthNames.findSome? (fun m =>
    if (m.toList.map Char.toUpper).isPrefixOf (l.map Char.toUpper) then some m.toList.length
    else none)

/-- All case-insensitive month-name matches in left-to-right order, as the
matched text (the global regex resumes after a match; scanning every
position gives the same matches because no month name overlaps the interior
of another: no proper suffix of a month name is a prefix of one). -/
def monthMatches : List Char → List (List Char)
  | [] => []
  | c :: rest =>
    match monthMatchLen (c :: rest) with
    | some n => ((c :: rest).take n) :: monthMatches rest
    | none => monthMatches rest

/-- `toTitleCase` from the source restricted to the single-word month tokens
it is applied to here: the single regex match spans the whole string
(`index = 0` and `index + match.length = title.length`), so the small-word
branch never fires and the word is capitalized:
`charAt(0).toUpperCase() + substr(1).toLowerCase()`. -/
def capitalizeWord (s : String) : String :=
  match s.toList with
  | [] => ""
  | c :: cs => String.mk (Char.toUpper c :: cs.map Char.toLower)

/-- Helper splitting a character list into its maximal runs of decimal
digits (the matches of `\d+` with the global flag). -/
def digitRunsAux : List Char → List Char → List (List Char)
  | [], acc => if acc.isEmpty then [] else [acc.reverse]
  | c :: rest, acc =>
    if isDigitChar c then digitRunsAux rest (c :: acc)
    else if acc.isEmpty then digitRunsAux rest []
    else acc.reverse :: digitRunsAux rest []

/-- All maximal digit runs of a string, in order (`match(/\d+/g)`). -/
def digitRuns (l : List Char) : List (List Char) := digitRunsAux l []

/-- The three components `parseFinalDateComponents` extracts. -/
structure DateComponents where
  year : String
  month : String
  day : Int
deriving DecidableEq, Repr

/-- `parseFinalDateComponents` from the certificate page: first 4-digit
window as the year (fallback "2026", also for the falsy empty string), the
last month-name match title-cased as the month (empty when none), and the
last number that is in 1..31 and differs from the parsed year as the day
(default 1). -/
def parseFinalDateComponents (dateString : String) : DateComponents :=
  if dateString = "" then { year := "2026", month := "", day := 1 }
  else
    let year :=
      match firstFourDigits dateString.toList with
      | some w => String.mk w
      | none => "2026"
    let month :=
      match (monthMatches dateString.toList).getLast? with
      | some m => capitalizeWord (String.mk m)
      | none => ""
    let yearNum := (jsParseInt year).getD 0
    let days := ((digitRuns dateString.toList).map (fun r => (digitsToNat r : Int))).filter
      (fun n => 0 < n && n ≤ 31 && n ≠ yearNum)
    let day :=
      match days.getLast? with
      | some d => d
      | none => 1
    { year := year, month := month, day := day }

/-- `cert?.training_date_range || cert?.training_date || ""` from
`CertificatePage`. -/
def certDateString (c : PageCert) : String :=
  jsOrStr c.training_date_range (jsOrStr c.training_date "")

/-- `cert?._id || cert?.id || "000000"`: a truthy string `_id` wins, then a
truthy (nonzero) numeric id interpolated in decimal, then the literal
fallback. -/
def certificateId (c : PageCert) : String :=
  match c.mongoId with
  | some s => if s = "" then certificateIdNum c else s
  | none => certificateIdNum c
where
  /-- The `cert?.id || "000000"` tail of the fallback chain. -/
  certificateIdNum (c : PageCert) : String :=
    match c.id with
    | some n => if n = 0 then "000000" else toString n
    | none => "000000"

/-- `cert?.training_type || "Training Program"`. -/
def pageTrainingType (c : PageCert) : String := jsOrStr c.training_type "Training Program"

/-- `cert?.participant_type || "Lay Rescuer"`. -/
def pageParticipantType (c : PageCert) : String := jsOrStr c.participant_type "Lay Rescuer"

/-- The `certificateCode` template literal of `CertificatePage`:
`` `DOHCHD-1-${trainAcr}-${partAcr}-${year}-${id}` ``. -/
def certificateCode (c : PageCert) : String :=
  "DOHCHD-1-" ++ getTrainingAcronym (pageTrainingType c) ++ "-" ++
    getParticipantAcronym (pageParticipantType c) ++ "-" ++
    (parseFinalDateComponents (certDateString c)).year ++ "-" ++ certificateId c

/-- The training acronym as claim C7 words it: fixed table, "TRNG" for
unknown or missing (matches the code: the missing-field default
"Training Program" is not in the table). -/
def claimTrainAcr (v : Option String) : String :=
  match v with
  | none => "TRNG"
  | some s =>
    if s = "Basic Life Support Training" then "BLS"
    else if s = "Basic Life Support and Standard First Aid Training" then "BLS-SFA"
    else if s = "Basic Life Support Training of trainers" then "BLS-TOT"
    else if s = "Standard First Aid Training of trainers" then "SFA-TOT"
    else "TRNG"

/-- The participant acronym as claim C7 words it: fixed table, "PART" for
unknown or missing. -/
def claimPartAcr (v : Option String) : String :=
  match v with
  | none => "PART"
  | some s =>
    if s = "Lay Rescuer" then "LR"
    else if s = "Healthcare Provider" then "HCP"
    else "PART"

/-- The 4-digit year as claim C7 words it: extracted from training_date,
"2026" when absent. -/
def claimYear (v : Option String) : String :=
  match v with
  | none => "2026"
  | some s =>
    match firstFourDigits s.toList with
    | some w => String.mk w
    | none => "2026"

/-- The certificate code as claim C7 words it (spec side, for
refinement). -/
def claimCertCode (c : PageCert) : String :=
  "DOHCHD-1-" ++ claimTrainAcr c.training_type ++ "-" ++ claimPartAcr c.participant_type ++
    "-" ++ claimYear c.training_date ++ "-" ++ certificateId c

/-- The participant acronym as amended: a missing or empty participant_type
defaults to "Lay Rescuer" (hence "LR") before the lookup; "PART" covers only
unrecognized non-empty values. -/
def amendedPartAcr (v : Option String) : String :=
  match v with
  | none => "LR"
  | some s =>
    if s = "" then "LR"
    else if s = "Lay Rescuer" then "LR"
    else if s = "Healthcare Provider" then "HCP"
    else "PART"

/-- The year as amended: extracted from the display date string
(training_date_range when present, else training_date). -/
def amendedYear (c : PageCert) : String :=
  match firstFourDigits (certDateString c).toList with
  | some w => String.mk w
  | none => "2026"

/-- The certificate code as amended. -/
def amendedCertCode (c : PageCert) : String :=
  "DOHCHD-1-" ++ claimTrainAcr c.training_type ++ "-" ++ amendedPartAcr c.participant_type ++
    "-" ++ amendedYear c ++ "-" ++ certificateId c

/-- A record with no participant_type, exercising the default chain. -/
def cexNoPartType : PageCert :=
  { mongoId := none, id := some 7, participant_name := some "A",
    training_type := some "Basic Life Support Training",
    training_date := some "January 14-18, 2026", training_date_range := none,
    venue := none, facility := none, participant_type := none }

/-- The year as claim C8 words it: the first 4-digit substring, found here
by scanning the suffixes left to right (an implementation independent of the
recursion in `firstFourDigits`). -/
def specYear (s : String) : String :=
  match s.toList.tails.find?
      (fun t => ((t.take 4).length = 4 : Bool) && (t.take 4).all isDigitChar) with
  | some t => String.mk (t.take 4)
  | none => "2026"

/-- The month as claim C8 words it: the last recognized English month-name
token, title-cased; found here as the first match scanning from the
right. -/
def specMonth (s : String) : String :=
  match (monthMatches s.toList).reverse.head? with
  | some m => capitalizeWord (String.mk m)
  | none => ""

/-- The day as claim C8 words it: the last number in the string lying in
1..31 and differing from the parsed year, found here as the first such
number scanning from the right; 1 when none exists. -/
def specDay (s : String) : Int :=
  match ((digitRuns s.toList).map (fun r => (digitsToNat r : Int))).reverse.find?
      (fun n => (1 ≤ n : Bool) && n ≤ 31 && n ≠ (jsParseInt (specYear s)).getD 0) with
  | some d => d
  | none => 1

/-- The date components as claim C8 words them (uniform; the empty string
has no 4-digit window, no month token and no number, so the defaults
coincide with the source's early return). -/
def specDateComponents (s : String) : DateComponents :=
  { year := specYear s, month := specMonth s, day := specDay s }

/-!
Route gating and the settings transaction (`server.js`).  JWT verification,
bcrypt and the database engine are external collaborators: token validity is
modelled by `Token`, and a per-query database failure in the settings
transaction by a failure oracle `dbFail`.
-/

/-- The identity cookie as the `protect` middleware resolves it. -/
inductive Token where
  | missing : Token
  | invalid : Token
  | valid : Int → Token
deriving DecidableEq, Repr

/-- The `protect` middleware outcome: the resolved user id, or `none`
(missing cookie, failed verification, or unknown user), which yields 401
without reaching the handler. -/
def protectCheck : Token → Option Int
  | Token.valid uid => some uid
  | _ => none

/-- Responses, by status class. -/
inductive Response where
  | created : Response
  | okResp : Response
  | badRequest : List String → Response
  | unauthorized : Response
  | notFound : Response
  | serverError : Response
deriving DecidableEq, Repr

/-- The server-side stores the mutating routes touch: the certificates
table (id, row), the id sequence, and the key-value settings table. -/
structure AppState where
  certs : List (Int × SanitizedData)
  nextId : Int
  settings : List (String × String)
deriving DecidableEq, Repr

instance : DecidableEq Body :=
  inferInstanceAs (DecidableEq (List (String × JsValue)))

instance : Repr Body :=
  inferInstanceAs (Repr (List (String × JsValue)))

/-- The four mutating requests of the API. -/
inductive Request where
  | createCert : Body → Request
  | updateCert : String → Body → Request
  | deleteCert : String → Request
  | postSettings : List (String × Option String) → Request
deriving DecidableEq, Repr

/-- Which routes carry the `protect` middleware in `server.js`:
`router.post("/certificates", handler)` and
`router.put("/certificates/:id", handler)` are registered without it;
`router.delete("/certificates/:id", protect, handler)` and
`router.post("/settings", protect, handler)` with it. -/
def routeProtected : Request → Bool
  | Request.createCert _ => false
  | Request.updateCert _ _ => false
  | Request.deleteCert _ => true
  | Request.postSettings _ => true

/-- `POST /certificates`: validate, sanitize, insert. -/
def createCertHandler (st : AppState) (body : Body) : AppState × Response :=
  match validateCertificateData body with
  | none => (st, Response.serverError)
  | some errs =>
    if errs.isEmpty then
      match sanitizeCertificateData body with
      | none => (st, Response.serverError)
      | some out =>
        ({ st with certs := st.certs ++ [(st.nextId, out)], nextId := st.nextId + 1 },
         Response.created)
    else (st, Response.badRequest errs)

/-- `PUT /certificates/:id`: parse id, check existence, validate, sanitize,
replace the row. -/
def updateCertHandler (st : AppState) (idStr : String) (body : Body) : AppState × Response :=
  match jsParseInt idStr with
  | none => (st, Response.badRequest ["Invalid certificate ID"])
  | some certId =>
    if st.certs.any (fun p => p.1 = certId) then
      match validateCertificateData body with
      | none => (st, Response.serverError)
      | some errs =>
        if errs.isEmpty then
          match sanitizeCertificateData body with
          | none => (st, Response.serverError)
          | some out =>
            ({ st with
                certs := st.certs.map (fun p => if p.1 = certId then (p.1, out) else p) },
             Response.okResp)
        else (st, Response.badRequest errs)
    else (st, Response.notFound)

/-- `DELETE /certificates/:id`: parse id, check existence, delete the
row. -/
def deleteCertHandler (st : AppState) (idStr : String) : AppState × Response :=
  match jsParseInt idStr with
  | none => (st, Response.badRequest ["Invalid certificate ID"])
  | some certId =>
    if st.certs.any (fun p => p.1 = certId) then
      ({ st with certs := st.certs.filter (fun p => p.1 ≠ certId) }, Response.okResp)
    else (st, Response.notFound)

/-- The recognized setting keys of `POST /settings`. -/
def validSettingKeys : List String :=
  ["off1_name", "off1_pos", "off1_sig", "off2_name", "off2_pos", "off3_name", "off3_pos"]

/-- One `INSERT ... ON CONFLICT (setting_key) DO UPDATE` upsert. -/
def upsertSetting (store : List (String × String)) (k v : String) : List (String × String) :=
  if store.any (fun p => p.1 = k) then
    store.map (fun p => if p.1 = k then (k, v) else p)
  else store ++ [(k, v)]

/-- The transaction loop over the submitted keys on a working copy of the
store (`value || ""` turns a null value into the empty string); `dbFail`
says whether the upsert for a key/value pair throws, in which case the
transaction is rolled back (`Except.error`). -/
def applySettings (dbFail : String → String → Bool) :
    List (String × String) → List (String × Option String) →
      Except Unit (List (String × String))
  | store, [] => Except.ok store
  | store, (k, v) :: rest =>
    if dbFail k (v.getD "") then Except.error ()
    else applySettings dbFail (upsertSetting store k (v.getD "")) rest

/-- `POST /settings`: empty-body and unrecognized-key checks, then the
transaction; a rollback surfaces as the generic 500. -/
def postSettingsHandler (dbFail : String → String → Bool) (st : AppState)
    (settings : List (String × Option String)) : AppState × Response :=
  if settings.isEmpty then (st, Response.badRequest ["No settings provided"])
  else
    if !((settings.map Prod.fst).filter (fun k => !(validSettingKeys.contains k))).isEmpty then
      (st, Response.badRequest
        ["Invalid setting keys: " ++ String.intercalate ", "
          ((settings.map Prod.fst).filter (fun k => !(validSettingKeys.contains k)))])
    else
      match applySettings dbFail st.settings settings with
      | Except.ok s2 => ({ st with settings := s2 }, Response.okResp)
      | Except.error _ => (st, Response.serverError)

/-- Request dispatch: the `protect` middleware runs first on protected
routes and short-circuits with 401 on an unresolved identity. -/
def handleRequest (dbFail : String → String → Bool) (st : AppState) (tok : Token)
    (req : Request) : AppState × Response :=
  if routeProtected req && (protectCheck tok).isNone then (st, Response.unauthorized)
  else
    match req with
    | Request.createCert body => createCertHandler st body
    | Request.updateCert idStr body => updateCertHandler st idStr body
    | Request.deleteCert idStr => deleteCertHandler st idStr
    | Request.postSettings settings => postSettingsHandler dbFail st settings

/-- An initial store for the concrete route evaluations. -/
def st0 : AppState := { certs := [], nextId := 1, settings := [] }

/-- A well-formed creation body for the concrete route evaluations. -/
def cBody : Body :=
  [("participant_name", JsValue.str "Ana Cruz"), ("age", JsValue.str "30")]

-- ===== DEF_ANCHOR: further embedded definitions are inserted above this line =====

theorem toList_mk (l : List Char) : (String.mk l).toList = l := rfl

theorem trimCharList_idem (l : List Char) : trimCharList (trimCharList l) = trimCharList l := by
  unfold trimCharList
  have h1 : List.dropWhile Char.isWhitespace
      (List.rdropWhile Char.isWhitespace (List.dropWhile Char.isWhitespace l)) =
      List.rdropWhile Char.isWhitespace (List.dropWhile Char.isWhitespace l) := by
    rw [List.dropWhile_eq_self_iff]
    intro hl
    have hpre := List.rdropWhile_prefix Char.isWhitespace (List.dropWhile Char.isWhitespace l)
    have hlen : 0 < (List.dropWhile Char.isWhitespace l).length :=
      lt_of_lt_of_le hl hpre.length_le
    have hget := List.IsPrefix.getElem hpre hl
    simp only [List.get_eq_getElem]
    rw [hget]
    have := List.dropWhile_get_zero_not Char.isWhitespace l hlen
    simpa [List.get_eq_getElem] using this
  rw [h1, List.rdropWhile_idempotent]

theorem jsTrim_idem (s : String) : jsTrim (jsTrim s) = jsTrim s := by
  unfold jsTrim
  rw [toList_mk, trimCharList_idem]

theorem trimField_shape {v w : JsValue} (h : trimField v = some w) : nullOrTrimmedNonempty w := by
  cases v with
  | undef => simp [trimField] at h; simp [nullOrTrimmedNonempty, ← h]
  | null => simp [trimField] at h; simp [nullOrTrimmedNonempty, ← h]
  | str s =>
    by_cases he : jsTrim s = ""
    · simp [trimField, he] at h
      simp [nullOrTrimmedNonempty, ← h]
    · simp [trimField, he] at h
      exact Or.inr ⟨jsTrim s, h.symm, he, jsTrim_idem s⟩
  | num n => simp [trimField] at h
  | nan => simp [trimField] at h
  | bool b => simp [trimField] at h

theorem trimField_blank {v : JsValue} (h : blankish v) : trimField v = some JsValue.null := by
  rcases h with rfl | rfl | ⟨w, rfl, hw⟩ <;> simp [trimField, *]

theorem sanitize_decomp {body : Body} {out : SanitizedData}
    (h : sanitizeCertificateData body = some out) :
    trimField (jsGet body "participant_name") = some out.participant_name ∧
    trimField (jsGet body "training_type") = some out.training_type ∧
    trimField (jsGet body "training_date") = some out.training_date ∧
    trimField (jsGet body "venue") = some out.venue ∧
    trimField (jsGet body "facility") = some out.facility ∧
    trimField (jsGet body "participant_type") = some out.participant_type ∧
    out.age = sanitizeAge (jsGet body "age") ∧
    trimField (jsGet body "position") = some out.position := by
  unfold sanitizeCertificateData at h
  simp only [bind, Option.bind_eq_some, pure, Option.some.injEq] at h
  obtain ⟨pn, hpn, tt, htt, td, htd, ve, hve, fa, hfa, pt, hpt, po, hpo, hout⟩ := h
  cases hout
  exact ⟨hpn, htt, htd, hve, hfa, hpt, rfl, hpo⟩

/-- C10: every string-valued field produced by `sanitizeCertificateData` is
either `null` or a nonempty trimmed string; an absent, empty or
whitespace-only string input maps to `null`, and a falsy age maps to
`null`. -/
theorem sanitizer_output_nullable_trimmed (body : Body) (out : SanitizedData)
    (h : sanitizeCertificateData body = some out) :
    (∀ fv ∈ stringFieldPairs body out,
        nullOrTrimmedNonempty fv.2 ∧ (blankish fv.1 → fv.2 = JsValue.null)) ∧
    ((jsGet body "age").truthy = false → out.age = JsValue.null) := by
  obtain ⟨h1, h2, h3, h4, h5, h6, hage, h7⟩ := sanitize_decomp h
  constructor
  · intro fv hfv
    have step : ∀ v w : JsValue, trimField v = some w →
        nullOrTrimmedNonempty w ∧ (blankish v → w = JsValue.null) := by
      intro v w hw
      refine ⟨trimField_shape hw, fun hb => ?_⟩
      rw [trimField_blank hb] at hw
      exact (Option.some.inj hw).symm
    simp only [stringFieldPairs, List.mem_cons, List.not_mem_nil, or_false] at hfv
    rcases hfv with rfl | rfl | rfl | rfl | rfl | rfl | rfl
    · exact step _ _ h1
    · exact step _ _ h2
    · exact step _ _ h3
    · exact step _ _ h4
    · exact step _ _ h5
    · exact step _ _ h6
    · exact step _ _ h7
  · intro ht
    rw [hage]
    simp [sanitizeAge, ht]

/-- Concrete input body for the C10 witness. -/
def c10Body : Body :=
  [("participant_name", JsValue.str "  Ana Cruz  "), ("venue", JsValue.str "   "),
   ("age", JsValue.num 0), ("color", JsValue.str "blue")]

/-- Sanitizer output on `c10Body`. -/
def c10Out : SanitizedData :=
  { participant_name := JsValue.str "Ana Cruz", training_type := JsValue.null,
    training_date := JsValue.null, venue := JsValue.null, facility := JsValue.null,
    participant_type := JsValue.null, age := JsValue.null, position := JsValue.null }

/-- Witness for C10 at a concrete body. -/
theorem sanitizer_output_nullable_trimmed_witness :
    (∀ fv ∈ stringFieldPairs c10Body c10Out,
        nullOrTrimmedNonempty fv.2 ∧ (blankish fv.1 → fv.2 = JsValue.null)) ∧
    ((jsGet c10Body "age").truthy = false → c10Out.age = JsValue.null) :=
  sanitizer_output_nullable_trimmed c10Body c10Out (by decide)

theorem nameMissingCheck_false {v : JsValue} (h : nameMissingCheck v = some false) :
    ∃ s, v = JsValue.str s ∧ jsTrim s ≠ "" := by
  cases v with
  | str s =>
    by_cases he : s = ""
    · subst he; simp [nameMissingCheck, JsValue.truthy] at h
    · refine ⟨s, rfl, ?_⟩
      simp [nameMissingCheck, JsValue.truthy, he] at h
      exact h
  | undef => simp [nameMissingCheck, JsValue.truthy] at h
  | null => simp [nameMissingCheck, JsValue.truthy] at h
  | num n =>
    by_cases hn : n = 0
    · subst hn; simp [nameMissingCheck, JsValue.truthy] at h
    · simp [nameMissingCheck, JsValue.truthy, hn] at h
  | nan => simp [nameMissingCheck, JsValue.truthy] at h
  | bool b => cases b <;> simp [nameMissingCheck, JsValue.truthy] at h

theorem validate_decomp {body : Body} {errs : List String}
    (h : validateCertificateData body = some errs) :
    ∃ nm, nameMissingCheck (jsGet body "participant_name") = some nm ∧
      errs = (if nm then [nameReqMsg] else []) ++
        (if enumCheck VALID_TRAINING_TYPES (jsGet body "training_type") then
          [trainingTypeMsg] else []) ++
        (if enumCheck VALID_PARTICIPANT_TYPES (jsGet body "participant_type") then
          [participantTypeMsg] else []) ++
        (if agePresent (jsGet body "age") && ageBad (jsGet body "age") then [ageMsg] else []) := by
  unfold validateCertificateData at h
  simp only [bind, Option.bind_eq_some, pure, Option.some.injEq] at h
  obtain ⟨nm, hnm, herr⟩ := h
  exact ⟨nm, hnm, herr.symm⟩

theorem certDataValid_eq_true {body : Body} (h : certDataValid body = true) :
    validateCertificateData body = some [] := by
  unfold certDataValid at h
  split at h <;> simp_all

theorem certDataValid_parts {body : Body} (h : certDataValid body = true) :
    nameMissingCheck (jsGet body "participant_name") = some false ∧
    enumCheck VALID_TRAINING_TYPES (jsGet body "training_type") = false ∧
    enumCheck VALID_PARTICIPANT_TYPES (jsGet body "participant_type") = false ∧
    (agePresent (jsGet body "age") && ageBad (jsGet body "age")) = false := by
  obtain ⟨nm, hnm, herr⟩ := validate_decomp (certDataValid_eq_true h)
  cases nm with
  | true => simp at herr
  | false =>
    refine ⟨hnm, ?_, ?_, ?_⟩
    · cases hb : enumCheck VALID_TRAINING_TYPES (jsGet body "training_type") with
      | false => rfl
      | true => rw [hb] at herr; simp at herr
    · cases hb : enumCheck VALID_PARTICIPANT_TYPES (jsGet body "participant_type") with
      | false => rfl
      | true => rw [hb] at herr; simp at herr
    · cases hb : (agePresent (jsGet body "age") && ageBad (jsGet body "age")) with
      | false => rfl
      | true => rw [hb] at herr; simp at herr

theorem enum_sanitized {valid : List String} {v w : JsValue}
    (hval : ∀ s ∈ valid, jsTrim s = s)
    (he : enumCheck valid v = false) (ht : trimField v = some w) :
    w = JsValue.null ∨ ∃ s, w = JsValue.str s ∧ s ∈ valid := by
  cases v with
  | undef => simp [trimField] at ht; exact Or.inl ht.symm
  | null => simp [trimField] at ht; exact Or.inl ht.symm
  | str s =>
    by_cases hs : s = ""
    · subst hs
      simp [trimField, jsTrim, trimCharList] at ht
      exact Or.inl ht.symm
    · have hmem : s ∈ valid := by
        simp [enumCheck, JsValue.truthy, hs] at he
        exact he
      by_cases htr : jsTrim s = ""
      · simp [trimField, htr] at ht; exact Or.inl ht.symm
      · simp [trimField, htr] at ht
        exact Or.inr ⟨jsTrim s, ht.symm, by rw [hval s hmem]; exact hmem⟩
  | num n =>
    by_cases hn : n = 0
    · subst hn; simp [trimField] at ht
    · simp [enumCheck, JsValue.truthy, hn] at he
  | nan => simp [trimField] at ht
  | bool b =>
    cases b with
    | false => simp [trimField] at ht
    | true => simp [enumCheck, JsValue.truthy] at he

/-- C4: for every raw input that passes validation and sanitizes without
throwing, the sanitized record has a nonempty string participant_name, and
each enumerated field is a listed value or `null` — never any other
string. -/
theorem sanitized_record_invariants (body : Body) (out : SanitizedData)
    (hv : certDataValid body = true) (hs : sanitizeCertificateData body = some out) :
    (∃ s, out.participant_name = JsValue.str s ∧ s ≠ "") ∧
    (out.training_type = JsValue.null ∨
      ∃ s, out.training_type = JsValue.str s ∧ s ∈ VALID_TRAINING_TYPES) ∧
    (out.participant_type = JsValue.null ∨
      ∃ s, out.participant_type = JsValue.str s ∧ s ∈ VALID_PARTICIPANT_TYPES) := by
  obtain ⟨h1, h2, h3, h4, h5, h6, hage, h7⟩ := sanitize_decomp hs
  obtain ⟨hname, htt, hpt, _⟩ := certDataValid_parts hv
  refine ⟨?_, ?_, ?_⟩
  · obtain ⟨s, heq, hne⟩ := nameMissingCheck_false hname
    rw [heq] at h1
    simp [trimField, hne] at h1
    exact ⟨jsTrim s, h1.symm, hne⟩
  · exact enum_sanitized (by decide) htt h2
  · exact enum_sanitized (by decide) hpt h6

/-- Concrete input body for the C4 witness. -/
def c4Body : Body :=
  [("participant_name", JsValue.str "Ana Cruz"),
   ("training_type", JsValue.str "Basic Life Support Training"),
   ("participant_type", JsValue.str "Healthcare Provider")]

/-- Sanitizer output on `c4Body`. -/
def c4Out : SanitizedData :=
  { participant_name := JsValue.str "Ana Cruz",
    training_type := JsValue.str "Basic Life Support Training",
    training_date := JsValue.null, venue := JsValue.null, facility := JsValue.null,
    participant_type := JsValue.str "Healthcare Provider",
    age := JsValue.null, position := JsValue.null }

/-- Witness for C4 at a concrete body. -/
theorem sanitized_record_invariants_witness :
    (∃ s, c4Out.participant_name = JsValue.str s ∧ s ≠ "") ∧
    (c4Out.training_type = JsValue.null ∨
      ∃ s, c4Out.training_type = JsValue.str s ∧ s ∈ VALID_TRAINING_TYPES) ∧
    (c4Out.participant_type = JsValue.null ∨
      ∃ s, c4Out.participant_type = JsValue.str s ∧ s ∈ VALID_PARTICIPANT_TYPES) :=
  sanitized_record_invariants c4Body c4Out (by decide) (by decide)

theorem find?_filter_eq {l : List (String × JsValue)} {q : String × JsValue → Bool} {k : String}
    (hq : ∀ p : String × JsValue, p.1 = k → q p = true) :
    (l.filter q).find? (fun p => p.1 = k) = l.find? (fun p => p.1 = k) := by
  induction l with
  | nil => rfl
  | cons hd tl ih =>
    by_cases hk : hd.1 = k
    · rw [List.filter_cons, if_pos (hq hd hk)]
      rw [List.find?_cons, List.find?_cons]
      simp [hk, ih]
    · cases hqh : q hd with
      | true =>
        rw [List.filter_cons, if_pos hqh]
        rw [List.find?_cons, List.find?_cons]
        simp [hk, ih]
      | false =>
        rw [List.filter_cons, if_neg (by simp [hqh])]
        rw [List.find?_cons]
        simp [hk, ih]

theorem jsGet_filter {b : Body} {k : String} (hk : allowedFields.contains k = true) :
    jsGet (List.filter (fun p => allowedFields.contains p.1) b) k = jsGet b k := by
  unfold jsGet
  rw [show (List.filter (fun p => allowedFields.contains p.1) b).reverse
      = (List.reverse b).filter (fun p => allowedFields.contains p.1) from
        (List.filter_reverse _ _).symm]
  rw [find?_filter_eq]
  intro p hp
  rw [hp]
  exact hk

theorem sanitize_filter_eq (body : Body) :
    sanitizeCertificateData (List.filter (fun p => allowedFields.contains p.1) body)
      = sanitizeCertificateData body := by
  unfold sanitizeCertificateData
  rw [jsGet_filter (by decide), jsGet_filter (by decide), jsGet_filter (by decide),
    jsGet_filter (by decide), jsGet_filter (by decide), jsGet_filter (by decide),
    jsGet_filter (by decide), jsGet_filter (by decide)]

/-- C6: for every raw field mapping that passes validation and sanitizes,
the sanitized output is unchanged when every field outside the 8-field
allow-list is dropped first (unknown fields are ignored), and every
string-valued output field is trimmed. -/
theorem sanitize_allowlist_and_trimmed (body : Body) (out : SanitizedData)
    (hv : certDataValid body = true) (hs : sanitizeCertificateData body = some out) :
    sanitizeCertificateData (List.filter (fun p => allowedFields.contains p.1) body)
      = some out ∧
    ∀ fv ∈ stringFieldPairs body out, ∀ s, fv.2 = JsValue.str s → jsTrim s = s := by
  refine ⟨by rw [sanitize_filter_eq]; exact hs, ?_⟩
  intro fv hfv s hstr
  have hall := (sanitizer_output_nullable_trimmed body out hs).1 fv hfv
  rcases hall.1 with hnull | ⟨t, hts, _, htr⟩
  · rw [hnull] at hstr; cases hstr
  · rw [hts] at hstr
    cases hstr
    exact htr

/-- Witness for C6 at a concrete body containing an unknown field. -/
theorem sanitize_allowlist_and_trimmed_witness :
    sanitizeCertificateData (List.filter (fun p => allowedFields.contains p.1) c10Body)
      = some c10Out ∧
    ∀ fv ∈ stringFieldPairs c10Body c10Out, ∀ s, fv.2 = JsValue.str s → jsTrim s = s :=
  sanitize_allowlist_and_trimmed c10Body c10Out (by decide) (by decide)

theorem truthy_agePresent {v : JsValue} (h : v.truthy = true) : agePresent v = true := by
  cases v <;> simp_all [JsValue.truthy, agePresent]

/-- C3 (counterexample): a body with the numeric age 0 passes validation and
the age is present, yet sanitization maps it to `null` rather than to the
integer 0 — `data.age ? parseInt(data.age) : null` treats the falsy number 0
as absent. -/
theorem age_zero_counterexample :
    certDataValid [("participant_name", JsValue.str "Ana"), ("age", JsValue.num 0)] = true ∧
    agePresent (jsGet [("participant_name", JsValue.str "Ana"), ("age", JsValue.num 0)] "age")
      = true ∧
    Option.map SanitizedData.age
      (sanitizeCertificateData [("participant_name", JsValue.str "Ana"), ("age", JsValue.num 0)])
      = some JsValue.null := by
  refine ⟨by decide, by decide, by decide⟩

/-- C3 (amended): for every body that passes validation and sanitizes, a
truthy age is parsed to an integer in [0, 120] while a falsy age (absent,
`null`, `""`, or the number 0) maps to `null`; and validation reports the age
error exactly for those present ages whose `parseInt` result is NaN or
outside [0, 120]. -/
theorem age_parsing_and_validation :
    (∀ (body : Body) (out : SanitizedData), certDataValid body = true →
        sanitizeCertificateData body = some out →
        ((jsGet body "age").truthy = true →
          ∃ n : Int, jsParseIntVal (jsGet body "age") = some n ∧ 0 ≤ n ∧ n ≤ 120 ∧
            out.age = JsValue.num n) ∧
        ((jsGet body "age").truthy = false → out.age = JsValue.null)) ∧
    (∀ (body : Body) (errs : List String), validateCertificateData body = some errs →
        (ageMsg ∈ errs ↔
          agePresent (jsGet body "age") = true ∧ ageBad (jsGet body "age") = true)) := by
  constructor
  · intro body out hv hs
    obtain ⟨_, _, _, _, _, _, hage, _⟩ := sanitize_decomp hs
    obtain ⟨_, _, _, hagecheck⟩ := certDataValid_parts hv
    constructor
    · intro ht
      have hpres := truthy_agePresent ht
      have hbad : ageBad (jsGet body "age") = false := by
        cases hb : ageBad (jsGet body "age") with
        | false => rfl
        | true => rw [hpres, hb] at hagecheck; simp at hagecheck
      unfold ageBad at hbad
      cases hp : jsParseIntVal (jsGet body "age") with
      | none => rw [hp] at hbad; simp at hbad
      | some n =>
        rw [hp] at hbad
        simp only [decide_eq_false_iff_not, not_or, Bool.or_eq_false_iff,
          decide_eq_false_iff_not, not_lt] at hbad
        refine ⟨n, rfl, hbad.1, hbad.2, ?_⟩
        rw [hage]
        unfold sanitizeAge
        rw [ht, hp]
        simp
    · intro ht
      rw [hage]
      unfold sanitizeAge
      rw [ht]
      simp
  · intro body errs hval
    obtain ⟨nm, _, herr⟩ := validate_decomp hval
    subst herr
    have hne1 : ageMsg ≠ nameReqMsg := by decide
    have hne2 : ageMsg ≠ trainingTypeMsg := by decide
    have hne3 : ageMsg ≠ participantTypeMsg := by decide
    constructor
    · intro hmem
      simp only [List.mem_append] at hmem
      rcases hmem with ((hmem | hmem) | hmem) | hmem
      · split at hmem <;> simp_all
      · split at hmem <;> simp_all
      · split at hmem <;> simp_all
      · cases hb : (agePresent (jsGet body "age") && ageBad (jsGet body "age")) with
        | false => rw [hb] at hmem; simp at hmem
        | true =>
          have := Bool.and_eq_true_iff.mp hb
          exact this
    · intro ⟨hp, hb⟩
      simp only [List.mem_append]
      right
      rw [hp, hb]
      simp

/-- Witness for the amended C3 at concrete inputs: a truthy string age
parses, and a present malformed age is reported. -/
theorem age_parsing_and_validation_witness :
    (∃ n : Int,
        jsParseIntVal (jsGet [("participant_name", JsValue.str "Ana"),
          ("age", JsValue.str "30")] "age") = some n ∧ 0 ≤ n ∧ n ≤ 120 ∧
        JsValue.num 30 = JsValue.num n) ∧
    (ageMsg ∈ [ageMsg] ↔
      agePresent (jsGet [("participant_name", JsValue.str "Ana"),
        ("age", JsValue.str "abc")] "age") = true ∧
      ageBad (jsGet [("participant_name", JsValue.str "Ana"),
        ("age", JsValue.str "abc")] "age") = true) := by
  constructor
  · have h := (age_parsing_and_validation.1
      [("participant_name", JsValue.str "Ana"), ("age", JsValue.str "30")]
      { participant_name := JsValue.str "Ana", training_type := JsValue.null,
        training_date := JsValue.null, venue := JsValue.null, facility := JsValue.null,
        participant_type := JsValue.null, age := JsValue.num 30, position := JsValue.null }
      (by decide) (by decide)).1 (by decide)
    exact h
  · exact age_parsing_and_validation.2
      [("participant_name", JsValue.str "Ana"), ("age", JsValue.str "abc")]
      [ageMsg] (by decide)

theorem insertCert_inv (acc : List (String × BatchGroup)) (processed : List Cert) (c : Cert)
    (hnd : (acc.map Prod.fst).Nodup)
    (hmem : ∀ p ∈ acc, p.2.certs = processed.filter (fun x => certBatchId x = p.1))
    (hany : ∀ k, acc.any (fun p => p.1 = k) = processed.any (fun x => certBatchId x = k)) :
    ((insertCert acc c).map Prod.fst).Nodup ∧
    (∀ p ∈ insertCert acc c,
        p.2.certs = (processed ++ [c]).filter (fun x => certBatchId x = p.1)) ∧
    (∀ k, (insertCert acc c).any (fun p => p.1 = k)
        = (processed ++ [c]).any (fun x => certBatchId x = k)) := by
  unfold insertCert
  by_cases hk : acc.any (fun p => p.1 = certBatchId c) = true
  · rw [if_pos hk]
    have hfst : ∀ p : String × BatchGroup,
        (if p.1 = certBatchId c then (p.1, { p.2 with certs := p.2.certs ++ [c] }) else p).1
          = p.1 := by
      intro p
      by_cases hp : p.1 = certBatchId c <;> simp [hp]
    refine ⟨?_, ?_, ?_⟩
    · rw [List.map_map]
      have : (Prod.fst ∘ fun p : String × BatchGroup =>
          if p.1 = certBatchId c then (p.1, { p.2 with certs := p.2.certs ++ [c] }) else p)
            = Prod.fst := by
        funext p
        exact hfst p
      rw [this]
      exact hnd
    · intro p hp
      rw [List.mem_map] at hp
      obtain ⟨q, hq, rfl⟩ := hp
      by_cases hq1 : q.1 = certBatchId c
      · rw [if_pos hq1]
        simp only [List.filter_append]
        have hc1 : [c].filter (fun x => certBatchId x = q.1) = [c] := by
          simp [hq1]
        rw [hc1, ← hmem q hq]
      · rw [if_neg hq1]
        rw [List.filter_append]
        have hc1 : [c].filter (fun x => certBatchId x = q.1) = [] := by
          simp
          exact fun h => hq1 h.symm
        rw [hc1, List.append_nil, ← hmem q hq]
    · intro k
      have hLHS : (acc.map (fun p : String × BatchGroup =>
          if p.1 = certBatchId c then (p.1, { p.2 with certs := p.2.certs ++ [c] }) else p)).any
            (fun p => p.1 = k) = acc.any (fun p => p.1 = k) := by
        rw [List.any_map]
        have hpred : ((fun p : String × BatchGroup => decide (p.1 = k)) ∘ fun p : String × BatchGroup =>
            if p.1 = certBatchId c then (p.1, { p.2 with certs := p.2.certs ++ [c] }) else p)
              = fun p : String × BatchGroup => decide (p.1 = k) := by
          funext p
          simp [Function.comp, hfst p]
        rw [hpred]
      rw [hLHS, hany k, List.any_append]
      by_cases hck : certBatchId c = k
      · subst hck
        have hp : processed.any (fun x => certBatchId x = certBatchId c) = true := by
          rw [← hany]
          exact hk
        simp [hp]
      · simp [hck]
  · rw [if_neg hk]
    have hk0 : acc.any (fun p => p.1 = certBatchId c) = false := by
      exact Bool.not_eq_true _ ▸ eq_false_of_ne_true hk
    have hnotin : ∀ p ∈ acc, p.1 ≠ certBatchId c := by
      intro p hp
      have := List.any_eq_false.mp hk0 p hp
      simpa using this
    have hproc : processed.filter (fun x => certBatchId x = certBatchId c) = [] := by
      rw [List.filter_eq_nil_iff]
      intro x hx
      have := List.any_eq_false.mp ((hany (certBatchId c)).symm.trans hk0) x hx
      simpa using this
    refine ⟨?_, ?_, ?_⟩
    · rw [List.map_append]
      rw [List.nodup_append]
      refine ⟨hnd, by simp, ?_⟩
      intro a ha hb
      simp at hb
      rw [List.mem_map] at ha
      obtain ⟨p, hp, rfl⟩ := ha
      exact hnotin p hp hb
    · intro p hp
      rw [List.mem_append] at hp
      rcases hp with hp | hp
      · rw [List.filter_append]
        have hc1 : [c].filter (fun x => certBatchId x = p.1) = [] := by
          simp
          exact fun h => hnotin p hp h.symm
        rw [hc1, List.append_nil, ← hmem p hp]
      · simp only [List.mem_singleton] at hp
        subst hp
        simp only [List.filter_append]
        rw [hproc]
        simp
    · intro k
      rw [List.any_append, List.any_append, hany k]
      simp

theorem groupCerts_inv (l : List Cert) :
    ((groupCerts l).map Prod.fst).Nodup ∧
    (∀ p ∈ groupCerts l, p.2.certs = l.filter (fun x => certBatchId x = p.1)) ∧
    (∀ k, (groupCerts l).any (fun p => p.1 = k) = l.any (fun x => certBatchId x = k)) := by
  suffices h : ∀ (r : List Cert) (acc : List (String × BatchGroup)) (processed : List Cert),
      (acc.map Prod.fst).Nodup →
      (∀ p ∈ acc, p.2.certs = processed.filter (fun x => certBatchId x = p.1)) →
      (∀ k, acc.any (fun p => p.1 = k) = processed.any (fun x => certBatchId x = k)) →
      ((List.foldl insertCert acc r).map Prod.fst).Nodup ∧
      (∀ p ∈ List.foldl insertCert acc r,
          p.2.certs = (processed ++ r).filter (fun x => certBatchId x = p.1)) ∧
      (∀ k, (List.foldl insertCert acc r).any (fun p => p.1 = k)
          = (processed ++ r).any (fun x => certBatchId x = k)) by
    have hmain := h l [] [] (by simp) (by simp) (by simp)
    simpa [groupCerts] using hmain
  intro r
  induction r with
  | nil =>
    intro acc processed h1 h2 h3
    simp only [List.foldl_nil, List.append_nil]
    exact ⟨h1, h2, h3⟩
  | cons c rest ih =>
    intro acc processed h1 h2 h3
    obtain ⟨g1, g2, g3⟩ := insertCert_inv acc processed c h1 h2 h3
    have hstep := ih (insertCert acc c) (processed ++ [c]) g1 g2 g3
    simpa using hstep

/-- C5 (amended): the grouping assigns equal batch keys to records whose
nonempty training_date strings (and nonempty training_type strings) differ
only in letter case and/or whitespace; two such records land in the same
batch, whose member list is the insertion-ordered sublist of the input with
that key; a missing or empty training_date contributes the literal "NODATE"
date key and a missing or empty training_type the "UNSPECIFIED" type key. -/
theorem batch_grouping_amended :
    (∀ (l : List Cert), ∀ p ∈ groupCerts l,
        p.2.certs = l.filter (fun x => certBatchId x = p.1)) ∧
    (∀ (l : List Cert), ∀ r ∈ l,
        ∃ g, (certBatchId r, g) ∈ groupCerts l ∧ r ∈ g.certs) ∧
    (∀ (r1 r2 : Cert) (d1 d2 t1 t2 : String),
        r1.training_date = some d1 → r2.training_date = some d2 → d1 ≠ "" → d2 ≠ "" →
        r1.training_type = some t1 → r2.training_type = some t2 → t1 ≠ "" → t2 ≠ "" →
        stripWs (jsToUpper d1) = stripWs (jsToUpper d2) →
        stripWs (jsToUpper t1) = stripWs (jsToUpper t2) →
        certBatchId r1 = certBatchId r2) ∧
    (∀ r : Cert, r.training_date = none ∨ r.training_date = some "" →
        certBatchId r = "NODATE" ++ "_" ++ certTypeKey r) ∧
    (∀ r : Cert, r.training_type = none ∨ r.training_type = some "" →
        certBatchId r = certDateKey r ++ "_" ++ "UNSPECIFIED") := by
  refine ⟨fun l => (groupCerts_inv l).2.1, ?_, ?_, ?_, ?_⟩
  · intro l r hr
    have hany := (groupCerts_inv l).2.2 (certBatchId r)
    have hr' : l.any (fun x => certBatchId x = certBatchId r) = true := by
      rw [List.any_eq_true]
      exact ⟨r, hr, by simp⟩
    rw [hr'] at hany
    rw [List.any_eq_true] at hany
    obtain ⟨p, hp, hpk⟩ := hany
    simp only [decide_eq_true_eq] at hpk
    obtain ⟨k0, g0⟩ := p
    simp only at hpk
    subst hpk
    refine ⟨g0, hp, ?_⟩
    have := (groupCerts_inv l).2.1 _ hp
    simp only at this
    rw [this, List.mem_filter]
    exact ⟨hr, by simp⟩
  · intro r1 r2 d1 d2 t1 t2 hd1 hd2 hd1e hd2e ht1 ht2 ht1e ht2e hdw htw
    unfold certBatchId certDateKey certTypeKey
    rw [hd1, hd2, ht1, ht2]
    simp only [jsOrStr]
    rw [if_neg hd1e, if_neg hd2e, if_neg ht1e, if_neg ht2e]
    rw [hdw, htw]
  · intro r hr
    have hnod : stripWs (jsToUpper "NODATE") = "NODATE" := by decide
    unfold certBatchId certDateKey
    rcases hr with hr | hr
    · rw [hr]
      simp only [jsOrStr]
      rw [hnod]
    · rw [hr]
      simp only [jsOrStr, if_true]
      rw [hnod]
  · intro r hr
    have huns : stripWs (jsToUpper "UNSPECIFIED") = "UNSPECIFIED" := by decide
    unfold certBatchId certTypeKey
    rcases hr with hr | hr
    · rw [hr]
      simp only [jsOrStr]
      rw [huns]
    · rw [hr]
      simp only [jsOrStr, if_true]
      rw [huns]

/-- C5 (counterexample): the training_date strings `""` and `" "` differ only
in whitespace, yet the grouping keys the first under "NODATE" (the `||`
fallback fires on the falsy empty string) and the second under the empty
normalized string, producing two distinct batches. -/
theorem batch_key_counterexample :
    stripWs (jsToUpper "") = stripWs (jsToUpper " ") ∧
    certBatchId cexEmptyDate ≠ certBatchId cexSpaceDate ∧
    (groupCerts [cexEmptyDate, cexSpaceDate]).map Prod.fst = ["NODATE_BLS", "_BLS"] := by
  refine ⟨by decide, by decide, by decide⟩

/-- Witness for the amended C5: two concrete case/whitespace variants land in
one batch, in insertion order. -/
theorem batch_grouping_witness :
    certBatchId wCertA = certBatchId wCertB ∧
    (∃ g, (certBatchId wCertA, g) ∈ groupCerts [wCertA, wCertB] ∧ wCertA ∈ g.certs) ∧
    certBatchId cexEmptyDate = "NODATE" ++ "_" ++ certTypeKey cexEmptyDate := by
  refine ⟨?_, ?_, ?_⟩
  · exact batch_grouping_amended.2.2.1 wCertA wCertB
      "January 21-23, 2026" "JANUARY  21-23,2026" "BLS" "bls"
      (by decide) (by decide) (by decide) (by decide) (by decide) (by decide)
      (by decide) (by decide) (by decide) (by decide)
  · exact batch_grouping_amended.2.1 [wCertA, wCertB] wCertA (by decide)
  · exact batch_grouping_amended.2.2.2.1 cexEmptyDate (Or.inr (by decide))

theorem mem_jsOrderedInsert {α : Type} {comp : α → α → Int} {x b : α} {l : List α} :
    b ∈ jsOrderedInsert comp x l ↔ b = x ∨ b ∈ l := by
  induction l with
  | nil => simp [jsOrderedInsert]
  | cons y ys ih =>
    unfold jsOrderedInsert
    by_cases h : comp x y ≤ 0
    · rw [if_pos h]
      simp
    · rw [if_neg h]
      simp [ih]
      tauto

theorem mem_jsSortBy {α : Type} {comp : α → α → Int} {b : α} {l : List α} :
    b ∈ jsSortBy comp l ↔ b ∈ l := by
  induction l with
  | nil => simp [jsSortBy]
  | cons x xs ih =>
    unfold jsSortBy
    rw [mem_jsOrderedInsert, ih]
    simp

theorem sortableCompare_key {parse : String → Option Int} {x y : String × BatchGroup}
    (hx : (getSortableDate parse x.2.displayDate).isSome = true)
    (hy : (getSortableDate parse y.2.displayDate).isSome = true) :
    sortableCompare parse x y = batchKeyD parse y - batchKeyD parse x := by
  obtain ⟨dx, hdx⟩ := Option.isSome_iff_exists.mp hx
  obtain ⟨dy, hdy⟩ := Option.isSome_iff_exists.mp hy
  unfold sortableCompare batchKeyD
  rw [hdx, hdy]
  simp

theorem jsOrderedInsert_sorted (parse : String → Option Int) {x : String × BatchGroup}
    {l : List (String × BatchGroup)}
    (hx : (getSortableDate parse x.2.displayDate).isSome = true)
    (hl : ∀ e ∈ l, (getSortableDate parse e.2.displayDate).isSome = true)
    (hs : List.Sorted (descBySortableDate parse) l) :
    List.Sorted (descBySortableDate parse) (jsOrderedInsert (sortableCompare parse) x l) := by
  induction l with
  | nil => simp [jsOrderedInsert]
  | cons y ys ih =>
    rw [List.sorted_cons] at hs
    obtain ⟨hy, hys⟩ := hs
    have hysome : (getSortableDate parse y.2.displayDate).isSome = true := hl y (by simp)
    unfold jsOrderedInsert
    by_cases hcmp : sortableCompare parse x y ≤ 0
    · rw [if_pos hcmp]
      rw [sortableCompare_key hx hysome] at hcmp
      have hxy : batchKeyD parse y ≤ batchKeyD parse x := by omega
      rw [List.sorted_cons]
      refine ⟨?_, by rw [List.sorted_cons]; exact ⟨hy, hys⟩⟩
      intro b hb
      rcases List.mem_cons.mp hb with rfl | hb
      · exact hxy
      · exact le_trans (hy b hb) hxy
    · rw [if_neg hcmp]
      rw [sortableCompare_key hx hysome] at hcmp
      have hxy : batchKeyD parse x ≤ batchKeyD parse y := by omega
      rw [List.sorted_cons]
      constructor
      · intro b hb
        rcases mem_jsOrderedInsert.mp hb with rfl | hb
        · exact hxy
        · exact hy b hb
      · exact ih (fun e he => hl e (List.mem_cons_of_mem _ he)) hys

theorem jsSortBy_sorted (parse : String → Option Int) {l : List (String × BatchGroup)}
    (hl : ∀ e ∈ l, (getSortableDate parse e.2.displayDate).isSome = true) :
    List.Sorted (descBySortableDate parse) (jsSortBy (sortableCompare parse) l) := by
  induction l with
  | nil => simp [jsSortBy]
  | cons x xs ih =>
    unfold jsSortBy
    exact jsOrderedInsert_sorted parse (hl x (by simp))
      (fun e he => hl e (List.mem_cons_of_mem _ (mem_jsSortBy.mp he)))
      (ih (fun e he => hl e (List.mem_cons_of_mem _ he)))

/-- C1 (amended): for every Date engine and every batch list all of whose
display dates the engine resolves (an empty display string resolving to
epoch zero), the sorted listing and every pagination slice of it are sorted
DESCENDING by the extracted best-effort date: the comparator's swapped
parameter names `(b, a)` give newest-first, and an epoch-zero entry sorts
last, not first. -/
theorem batch_listing_sorted_descending :
    ∀ (parse : String → Option Int) (l : List (String × BatchGroup)) (page per : Nat),
      (∀ e ∈ l, (getSortableDate parse e.2.displayDate).isSome = true) →
      List.Sorted (descBySortableDate parse) (sortedBatches parse l) ∧
      List.Sorted (descBySortableDate parse) (paginatedBatches parse page per l) ∧
      getSortableDate parse "" = some 0 := by
  intro parse l page per h
  have hs : List.Sorted (descBySortableDate parse) (sortedBatches parse l) :=
    jsSortBy_sorted parse h
  refine ⟨hs, ?_, by simp [getSortableDate]⟩
  have hsub : List.Sublist (((sortedBatches parse l).drop ((page - 1) * per)).take per)
      (sortedBatches parse l) :=
    (List.take_sublist _ _).trans (List.drop_sublist _ _)
  exact List.Pairwise.sublist hsub hs

/-- C1 (counterexample): with a calendar-consistent engine, a January batch
and a February batch are listed [February, January] — descending, not
ascending as the claim states. -/
theorem batch_sort_counterexample :
    (∃ a b : Int,
        getSortableDate refDateParse (certDisplayDate rJan) = some a ∧
        getSortableDate refDateParse (certDisplayDate rFeb) = some b ∧ a < b) ∧
    (sortedBatches refDateParse (filteredAndGroupedCerts "" [rJan, rFeb])).map Prod.fst
      = [certBatchId rFeb, certBatchId rJan] := by
  exact ⟨⟨842871, 842882, by decide, by decide, by decide⟩, by decide⟩

/-- Witness for the amended C1 on the concrete two-batch listing. -/
theorem batch_listing_sorted_witness :
    List.Sorted (descBySortableDate refDateParse)
      (sortedBatches refDateParse (filteredAndGroupedCerts "" [rJan, rFeb])) ∧
    List.Sorted (descBySortableDate refDateParse)
      (paginatedBatches refDateParse 1 10 (filteredAndGroupedCerts "" [rJan, rFeb])) ∧
    getSortableDate refDateParse "" = some 0 :=
  batch_listing_sorted_descending refDateParse (filteredAndGroupedCerts "" [rJan, rFeb]) 1 10
    (by decide)

theorem trainAcr_eq (v : Option String) :
    getTrainingAcronym (jsOrStr v "Training Program") = claimTrainAcr v := by
  rcases v with _ | s
  · decide
  · simp only [jsOrStr, claimTrainAcr]
    by_cases h0 : s = ""
    · subst h0; decide
    · rw [if_neg h0]
      by_cases h1 : s = "Basic Life Support Training"
      · subst h1; decide
      · rw [if_neg h1]
        by_cases h2 : s = "Basic Life Support and Standard First Aid Training"
        · subst h2; decide
        · rw [if_neg h2]
          by_cases h3 : s = "Basic Life Support Training of trainers"
          · subst h3; decide
          · rw [if_neg h3]
            by_cases h4 : s = "Standard First Aid Training of trainers"
            · subst h4; decide
            · rw [if_neg h4]
              unfold getTrainingAcronym trainingAcronymMap
              rw [List.find?_cons_of_neg _ (by simpa using fun h => h1 h.symm),
                List.find?_cons_of_neg _ (by simpa using fun h => h2 h.symm),
                List.find?_cons_of_neg _ (by simpa using fun h => h3 h.symm),
                List.find?_cons_of_neg _ (by simpa using fun h => h4 h.symm)]
              rfl

theorem partAcr_eq (v : Option String) :
    getParticipantAcronym (jsOrStr v "Lay Rescuer") = amendedPartAcr v := by
  rcases v with _ | s
  · decide
  · simp only [jsOrStr, amendedPartAcr]
    by_cases h0 : s = ""
    · subst h0; decide
    · rw [if_neg h0, if_neg h0]
      by_cases h1 : s = "Lay Rescuer"
      · subst h1; decide
      · rw [if_neg h1]
        by_cases h2 : s = "Healthcare Provider"
        · subst h2; decide
        · rw [if_neg h2]
          unfold getParticipantAcronym participantAcronymMap
          rw [List.find?_cons_of_neg _ (by simpa using fun h => h1 h.symm),
            List.find?_cons_of_neg _ (by simpa using fun h => h2 h.symm)]
          rfl

theorem parse_year_eq (d : String) :
    (parseFinalDateComponents d).year =
      match firstFourDigits d.toList with
      | some w => String.mk w
      | none => "2026" := by
  unfold parseFinalDateComponents
  by_cases h : d = ""
  · subst h; decide
  · rw [if_neg h]

/-- C7 (counterexample): for a record with no participant_type the rendered
code uses the default "Lay Rescuer" acronym "LR", not the "PART" fallback
the claim assigns to a missing participant type. -/
theorem certificate_code_counterexample :
    certificateCode cexNoPartType = "DOHCHD-1-BLS-LR-2026-7" ∧
    claimCertCode cexNoPartType = "DOHCHD-1-BLS-PART-2026-7" ∧
    certificateCode cexNoPartType ≠ claimCertCode cexNoPartType := by
  refine ⟨by decide, by decide, by decide⟩

/-- C7 (amended): the rendered certificate code is exactly the fixed prefix,
the training acronym (fallback "TRNG" for unknown or missing), the
participant acronym with "LR" for a missing or empty participant_type and
"PART" only for unrecognized non-empty values, the first 4-digit year of the
display date string (fallback "2026"), and the record id, joined by hyphens;
and the computation is deterministic. -/
theorem certificate_code_amended :
    (∀ c : PageCert, certificateCode c = amendedCertCode c) ∧
    (∀ c₁ c₂ : PageCert, c₁ = c₂ → certificateCode c₁ = certificateCode c₂) := by
  constructor
  · intro c
    unfold certificateCode amendedCertCode pageTrainingType pageParticipantType amendedYear
    rw [trainAcr_eq, partAcr_eq, parse_year_eq]
  · intro c₁ c₂ h
    rw [h]

/-- Witness for the amended C7 at a concrete record. -/
theorem certificate_code_amended_witness :
    certificateCode cexNoPartType = amendedCertCode cexNoPartType ∧
    certificateCode cexNoPartType = certificateCode cexNoPartType :=
  ⟨certificate_code_amended.1 cexNoPartType,
   certificate_code_amended.2 cexNoPartType cexNoPartType rfl⟩

theorem firstFourDigits_eq_tails (l : List Char) :
    firstFourDigits l = (l.tails.find?
        (fun t => ((t.take 4).length = 4 : Bool) && (t.take 4).all isDigitChar)).map
      (fun t => t.take 4) := by
  induction l with
  | nil => simp [firstFourDigits]
  | cons c rest ih =>
    rw [List.tails_cons, List.find?_cons]
    unfold firstFourDigits
    by_cases h : ((((c :: rest).take 4).length = 4 : Bool) && ((c :: rest).take 4).all isDigitChar)
        = true
    · rw [if_pos h, h]
      rfl
    · have hb := eq_false_of_ne_true h
      rw [if_neg h, hb]
      exact ih

theorem head?_filter {α : Type} (p : α → Bool) (l : List α) :
    (l.filter p).head? = l.find? p := by
  induction l with
  | nil => rfl
  | cons x xs ih =>
    rw [List.filter_cons, List.find?_cons]
    by_cases h : p x = true
    · rw [if_pos h, h]
      rfl
    · have hb := eq_false_of_ne_true h
      rw [if_neg h, hb]
      exact ih

theorem filter_getLast?_eq_reverse_find? {α : Type} (p : α → Bool) (l : List α) :
    (l.filter p).getLast? = l.reverse.find? p := by
  rw [← List.head?_reverse, ← List.filter_reverse, head?_filter]

/-- C8: `parseFinalDateComponents` returns exactly the components the claim
describes — first 4-digit substring as the year ("2026" when none or the
string is empty), the last recognized month-name token (title-cased) as the
month ("" when none), and the last number in 1..31 different from the parsed
year as the day (default 1) — and on the range "14-18" the day is 18. -/
theorem final_date_components_correct :
    (∀ s : String, parseFinalDateComponents s = specDateComponents s) ∧
    (parseFinalDateComponents "January 14-18, 2026").day = 18 ∧
    parseFinalDateComponents "" = { year := "2026", month := "", day := 1 } := by
  refine ⟨?_, by decide, by decide⟩
  intro s
  by_cases h : s = ""
  · subst h; decide
  · unfold parseFinalDateComponents specDateComponents
    rw [if_neg h]
    have hyear : (match firstFourDigits s.toList with
        | some w => String.mk w
        | none => "2026") = specYear s := by
      unfold specYear
      rw [firstFourDigits_eq_tails]
      cases s.toList.tails.find?
          (fun t => ((t.take 4).length = 4 : Bool) && (t.take 4).all isDigitChar) <;> rfl
    have hmonth : (match (monthMatches s.toList).getLast? with
        | some m => capitalizeWord (String.mk m)
        | none => "") = specMonth s := by
      unfold specMonth
      rw [List.head?_reverse]
    have hpred : (fun n : Int => (0 < n : Bool) && n ≤ 31 && n ≠ (jsParseInt (specYear s)).getD 0)
        = (fun n : Int => (1 ≤ n : Bool) && n ≤ 31 && n ≠ (jsParseInt (specYear s)).getD 0) := by
      funext n
      by_cases hn : (0 : Int) < n
      · have h1 : (1 : Int) ≤ n := hn
        simp [hn, h1]
      · have h1 : ¬(1 : Int) ≤ n := by omega
        simp [hn, h1]
    have hday : (match (((digitRuns s.toList).map (fun r => (digitsToNat r : Int))).filter
          (fun n => (0 < n : Bool) && n ≤ 31 && n ≠ (jsParseInt (specYear s)).getD 0)).getLast?
          with
        | some d => d
        | none => 1) = specDay s := by
      unfold specDay
      rw [hpred, filter_getLast?_eq_reverse_find?]
    simp only [DateComponents.mk.injEq]
    rw [← hyear]
    refine ⟨rfl, by rw [← hmonth], ?_⟩
    rw [← hday, hyear]

/-- Witness for C8: the general equality applied at a concrete range
string. -/
theorem final_date_components_witness :
    parseFinalDateComponents "issued JANUARY 5-9, 2026" =
      specDateComponents "issued JANUARY 5-9, 2026" ∧
    specDateComponents "issued JANUARY 5-9, 2026" =
      { year := "2026", month := "January", day := 9 } :=
  ⟨final_date_components_correct.1 "issued JANUARY 5-9, 2026", by decide⟩

/-- C2 (counterexample): a request with no identity token creates a
certificate — the state changes and no unauthorized signal is produced —
and likewise an unauthenticated update is not rejected as unauthorized:
`POST /certificates` and `PUT /certificates/:id` carry no `protect`
middleware. -/
theorem unauthenticated_mutation_counterexample :
    (handleRequest (fun _ _ => false) st0 Token.missing (Request.createCert cBody)).1 ≠ st0 ∧
    (handleRequest (fun _ _ => false) st0 Token.missing (Request.createCert cBody)).2
      = Response.created ∧
    (handleRequest (fun _ _ => false) st0 Token.missing (Request.updateCert "1" cBody)).2
      ≠ Response.unauthorized := by
  refine ⟨by decide, by decide, by decide⟩

/-- C2 (amended): deleting a certificate and updating settings are gated by
the auth middleware — without a valid identity token they return the
unauthorized signal with the state untouched — while creating and updating
a certificate are registered without the gate. -/
theorem auth_gate_amended :
    (∀ (dbFail : String → String → Bool) (st : AppState) (tok : Token) (req : Request),
        routeProtected req = true → protectCheck tok = none →
        handleRequest dbFail st tok req = (st, Response.unauthorized)) ∧
    (∀ idStr, routeProtected (Request.deleteCert idStr) = true) ∧
    (∀ settings, routeProtected (Request.postSettings settings) = true) ∧
    (∀ body, routeProtected (Request.createCert body) = false) ∧
    (∀ idStr body, routeProtected (Request.updateCert idStr body) = false) := by
  refine ⟨?_, fun _ => rfl, fun _ => rfl, fun _ => rfl, fun _ _ => rfl⟩
  intro dbFail st tok req h1 h2
  unfold handleRequest
  rw [h1, h2]
  rfl

/-- Witness for the amended C2: an unauthenticated delete and an
unauthenticated settings update are both rejected untouched. -/
theorem auth_gate_amended_witness :
    handleRequest (fun _ _ => false) st0 Token.missing (Request.deleteCert "1")
      = (st0, Response.unauthorized) ∧
    handleRequest (fun _ _ => false) st0 Token.invalid
      (Request.postSettings [("off1_name", some "X")]) = (st0, Response.unauthorized) :=
  ⟨auth_gate_amended.1 (fun _ _ => false) st0 Token.missing (Request.deleteCert "1")
      rfl rfl,
   auth_gate_amended.1 (fun _ _ => false) st0 Token.invalid
      (Request.postSettings [("off1_name", some "X")]) rfl rfl⟩

theorem applySettings_cases (dbFail : String → String → Bool)
    (settings : List (String × Option String)) :
    ∀ store : List (String × String),
      applySettings dbFail store settings = Except.error () ∨
      applySettings dbFail store settings =
        Except.ok (settings.foldl (fun acc kv => upsertSetting acc kv.1 (kv.2.getD "")) store) := by
  induction settings with
  | nil => intro store; exact Or.inr rfl
  | cons kv rest ih =>
    intro store
    obtain ⟨k, v⟩ := kv
    unfold applySettings
    by_cases h : dbFail k (v.getD "") = true
    · rw [if_pos h]
      exact Or.inl rfl
    · rw [if_neg h]
      exact ih (upsertSetting store k (v.getD ""))

/-- C9: the bulk settings update is atomic — for every failure pattern of
the per-key upserts, the settings store afterwards is either exactly the
original one or the one with every submitted key upserted in order, never a
partial subset; and whenever the transaction loop fails, the whole state is
rolled back untouched. -/
theorem settings_update_atomic :
    ∀ (dbFail : String → String → Bool) (st : AppState) (tok : Token)
      (settings : List (String × Option String)),
      ((handleRequest dbFail st tok (Request.postSettings settings)).1.settings = st.settings ∨
        (handleRequest dbFail st tok (Request.postSettings settings)).1.settings =
          settings.foldl (fun acc kv => upsertSetting acc kv.1 (kv.2.getD "")) st.settings) ∧
      (applySettings dbFail st.settings settings = Except.error () →
        (handleRequest dbFail st tok (Request.postSettings settings)).1 = st) := by
  intro dbFail st tok settings
  unfold handleRequest
  by_cases htok : (protectCheck tok).isNone = true
  · rw [show (routeProtected (Request.postSettings settings) &&
        (protectCheck tok).isNone) = true by rw [htok]; rfl]
    exact ⟨Or.inl rfl, fun _ => rfl⟩
  · have hcond : ¬((routeProtected (Request.postSettings settings) &&
        (protectCheck tok).isNone) = true) := by
      simp only [Bool.and_eq_true]
      intro hc
      exact htok hc.2
    rw [if_neg hcond]
    show ((postSettingsHandler dbFail st settings).1.settings = st.settings ∨
        (postSettingsHandler dbFail st settings).1.settings =
          List.foldl (fun acc kv => upsertSetting acc kv.1 (kv.2.getD "")) st.settings settings) ∧
      (applySettings dbFail st.settings settings = Except.error () →
        (postSettingsHandler dbFail st settings).1 = st)
    unfold postSettingsHandler
    by_cases hempty : settings.isEmpty = true
    · rw [if_pos hempty]
      exact ⟨Or.inl rfl, fun _ => rfl⟩
    · rw [if_neg hempty]
      by_cases hkeys : (!((settings.map Prod.fst).filter
          (fun k => !(validSettingKeys.contains k))).isEmpty) = true
      · rw [if_pos hkeys]
        exact ⟨Or.inl rfl, fun _ => rfl⟩
      · rw [if_neg hkeys]
        rcases applySettings_cases dbFail settings st.settings with herr | hok
        · rw [herr]
          exact ⟨Or.inl rfl, fun _ => rfl⟩
        · rw [hok]
          refine ⟨Or.inr rfl, fun hcontra => ?_⟩
          cases hcontra

/-- Witness for C9: a failing oracle rolls the update back, a succeeding
oracle commits both keys. -/
theorem settings_update_atomic_witness :
    ((handleRequest (fun k _ => k = "off2_name") st0 (Token.valid 1)
        (Request.postSettings [("off1_name", some "X"), ("off2_name", some "Y")])).1.settings
          = st0.settings ∨
      (handleRequest (fun k _ => k = "off2_name") st0 (Token.valid 1)
        (Request.postSettings [("off1_name", some "X"), ("off2_name", some "Y")])).1.settings
          = [("off1_name", some "X"), ("off2_name", some "Y")].foldl
              (fun acc kv => upsertSetting acc kv.1 (kv.2.getD "")) st0.settings) ∧
    (applySettings (fun k _ => k = "off2_name") st0.settings
        [("off1_name", some "X"), ("off2_name", some "Y")] = Except.error () →
      (handleRequest (fun k _ => k = "off2_name") st0 (Token.valid 1)
        (Request.postSettings [("off1_name", some "X"), ("off2_name", some "Y")])).1 = st0) :=
  settings_update_atomic (fun k _ => k = "off2_name") st0 (Token.valid 1)
    [("off1_name", some "X"), ("off2_name", some "Y")]
